import Mathlib

/-!
Shallow embedding of src/convert.py (HEIC to PNG/JPEG converter).

The program's components modelled here:
  * Config Store: load_config / save_config over config.json (lines 29-42);
  * Image Normalizer: sanitize_image (lines 49-59), with the Pillow
    operations it calls (Image.new, convert, split, paste-with-mask)
    embedded at pixel level;
  * interactive format/quality selection: choose_format (lines 61-86);
  * Converter Loop: convert_files (lines 116-160), with decode/write of
    each file abstracted as per-file data (the codec is an external
    black box);
  * Reporter: the top-3/ratio part of print_summary (lines 108-114).

Machine integers do not occur: Python ints are unbounded, so Nat/Int are
exact. Pixel channels are Nat values in 0..255.
-/

/-! ## Image model

A Pillow image is a mode tag, a size, a flat row-major pixel list and
(for palette images) a palette.  A pixel is its list of channel values:
RGB has 3 channels, RGBA 4, LA 2 (luma, alpha), L 1 (luma), P 1 (palette
index).  Palette entries are RGBA quadruples (a palette-with-alpha image
is a P image whose palette carries alpha values below 255). -/

inductive Mode where
  | RGB
  | RGBA
  | LA
  | L
  | P
deriving DecidableEq, Repr

abbrev Pixel := List Nat

structure Img where
  mode : Mode
  width : Nat
  height : Nat
  px : List Pixel
  palette : List Pixel
deriving DecidableEq, Repr

/-- Pillow `Image.new("RGB", (w, h), (255, 255, 255))`: the solid white
canvas built at line 51 of convert.py. -/
def imageNewWhite (w h : Nat) : Img :=
  { mode := .RGB, width := w, height := h,
    px := List.replicate (w * h) [255, 255, 255], palette := [] }

/-- Pillow's MULDIV255 macro (ImagingUtils.h): exact rounding division of
a*b by 255 computed as ((t >> 8) + t) >> 8 with t = a*b + 128.  The
bit-shift by 8 on an unsigned value is division by 256. -/
def muldiv255 (a b : Nat) : Nat :=
  let t := a * b + 128
  ((t >>> 8) + t) >>> 8

/-- Pillow's BLEND macro: paste of foreground channel value c over
background channel value bgc under mask (alpha) value a. -/
def blendChan (bgc c a : Nat) : Nat :=
  muldiv255 bgc (255 - a) + muldiv255 c a

/-- One pixel of `bg.paste(img, mask=alpha)` for an RGB background and an
RGBA foreground: each colour channel is blended with the foreground's
alpha (channel 3) as the mask. -/
def blendPix (bgp fgp : Pixel) : Pixel :=
  let a := fgp.getD 3 0
  [blendChan (bgp.getD 0 0) (fgp.getD 0 0) a,
   blendChan (bgp.getD 1 0) (fgp.getD 1 0) a,
   blendChan (bgp.getD 2 0) (fgp.getD 2 0) a]

/-- Pillow `bg.paste(img, mask=img.split()[-1])` (line 55 of convert.py):
the background keeps its mode and size, every pixel is blended with the
foreground pixel under the foreground's last (alpha) channel. -/
def pasteMask (bg fg : Img) : Img :=
  { bg with px := List.zipWith blendPix bg.px fg.px }

/-- Pillow `img.convert("RGBA")` for a palette image (line 53 of
convert.py): each palette index is replaced by its RGBA palette entry. -/
def convertPToRGBA (img : Img) : Img :=
  { img with
    mode := .RGBA,
    px := img.px.map (fun p => img.palette.getD (p.getD 0 0) [0, 0, 0, 255]) }

/-- Pillow `img.convert("RGB")` (line 58 of convert.py): greyscale is
replicated into three channels, alpha is dropped, palettes are applied.
In sanitize_image only L-mode images reach this call. -/
def convertToRGB (img : Img) : Img :=
  { img with
    mode := .RGB,
    px :=
      match img.mode with
      | .L => img.px.map (fun p => [p.getD 0 0, p.getD 0 0, p.getD 0 0])
      | .LA => img.px.map (fun p => [p.getD 0 0, p.getD 0 0, p.getD 0 0])
      | .RGBA => img.px.map (fun p => p.take 3)
      | .P => img.px.map (fun p => (img.palette.getD (p.getD 0 0) [0, 0, 0, 255]).take 3)
      | .RGB => img.px }

/-- sanitize_image (convert.py lines 49-59), branch for branch:
if the mode is RGBA, LA or P, build a white canvas; a P image is first
expanded to RGBA; then ONLY an RGBA image is pasted onto the canvas with
its alpha as mask (an LA image is not, so the canvas itself — solid
white — becomes the result); the canvas replaces the image.  Otherwise a
non-RGB image is converted directly to RGB, and an RGB image passes
through unchanged. -/
def sanitize_image (img : Img) : Img :=
  if img.mode = .RGBA ∨ img.mode = .LA ∨ img.mode = .P then
    let bg := imageNewWhite img.width img.height
    let img1 := if img.mode = .P then convertPToRGBA img else img
    if img1.mode = .RGBA then pasteMask bg img1 else bg
  else if img.mode ≠ .RGB then convertToRGB img
  else img

/-! ## Config Store

config.json is modelled by its observable parse outcome: absent file,
unparsable file, or a parsed JSON object with the two optional keys the
program reads.  load_config (lines 29-36) merges the parsed keys over
the defaults; save_config (lines 38-42) writes both keys. -/

structure Config where
  output_fmt : String
  jpeg_quality : Int
deriving DecidableEq, Repr

def default_config : Config := { output_fmt := "png", jpeg_quality := 95 }

inductive FileState where
  | absent
  | corrupt
  | parsed (fmt : Option String) (quality : Option Int)
deriving DecidableEq, Repr

/-- load_config (convert.py lines 29-36): on a missing or unparsable file
the defaults are returned; otherwise the parsed keys override the
defaults key by key ({**default, **parsed}).  No clamping happens. -/
def load_config : FileState → Config
  | .absent => default_config
  | .corrupt => default_config
  | .parsed f q => { output_fmt := f.getD "png", jpeg_quality := q.getD 95 }

/-- save_config (convert.py lines 38-42) on the successful-write path:
both keys are written out. -/
def save_config (cfg : Config) : FileState :=
  .parsed (some cfg.output_fmt) (some cfg.jpeg_quality)

/-! ## Interactive format / quality selection (choose_format, lines 61-86) -/

/-- Python str.strip(): drop leading and trailing whitespace. -/
def pyStrip (s : String) : String :=
  String.mk (((s.toList.dropWhile Char.isWhitespace).reverse.dropWhile Char.isWhitespace).reverse)

/-- Python str.strip().lower() as applied to the menu input at line 68. -/
def pyStripLower (s : String) : String :=
  String.mk ((((s.toList.dropWhile Char.isWhitespace).reverse.dropWhile Char.isWhitespace).reverse).map Char.toLower)

/-- Python int(s) on a stripped string: optional sign followed by at
least one digit; anything else raises ValueError (modelled as none). -/
def parsePyInt (s : String) : Option Int :=
  let cs := s.toList
  let digitsVal (ds : List Char) : Int :=
    ds.foldl (fun n c => n * 10 + (Int.ofNat (c.toNat - 48))) 0
  match cs with
  | [] => none
  | '-' :: rest => if rest ≠ [] ∧ rest.all Char.isDigit then some (-(digitsVal rest)) else none
  | '+' :: rest => if rest ≠ [] ∧ rest.all Char.isDigit then some (digitsVal rest) else none
  | _ => if cs.all Char.isDigit then some (digitsVal cs) else none

/-- The quality prompt logic (convert.py lines 72-77) for a stripped
input string and the loaded configuration's default d:
empty input takes the default and is then clamped (the clamp at line 75
still runs, since no exception was raised); numeric input is parsed and
clamped; non-numeric input raises inside int() before the clamp, and the
except branch falls back to the default unclamped. -/
def resolve_quality (q_input : String) (d : Int) : Int :=
  if q_input = "" then
    max 1 (min 100 d)
  else
    match parsePyInt q_input with
    | some n => max 1 (min 100 n)
    | none => d

/-- The choose_format while-loop (convert.py lines 63-84) over the
already-loaded configuration and the sequence of user entries, each a
pair of the format-menu input and the quality input consumed when the
menu input is "1".  Result: none if the entries run out (EOF /
interruption, no configuration chosen), some none on quit, and
some (some cfg) for the configuration that is then saved and used. -/
def choose_format_loop (cfg : Config) : List (String × String) → Option (Option Config)
  | [] => none
  | (c, qs) :: rest =>
    let choice := pyStripLower c
    if choice = "q" then some none
    else if choice = "1" then
      some (some { output_fmt := "jpeg",
                   jpeg_quality := resolve_quality (pyStrip qs) cfg.jpeg_quality })
    else if choice = "2" then
      some (some { cfg with output_fmt := "png" })
    else choose_format_loop cfg rest

/-! ## Converter Loop (convert_files, lines 116-160)

Decoding and encoding are done by the external codec; per input file we
record the observable outcomes: the decoded image (none = the file is
corrupt/unreadable and Image.open/load raises), whether the encode/write
succeeds, and the on-disk size of the written output. -/

structure InputFile where
  name : String
  stem : String
  origSize : Nat
  decoded : Option Img
  writeOk : Bool
  encodedSize : Nat

structure ConversionRecord where
  filename : String
  original_size : Nat
  converted_size : Nat
deriving DecidableEq, Repr

/-- Output extension choice (convert.py line 131). -/
def output_ext (cfg : Config) : String :=
  if cfg.output_fmt = "jpeg" then ".jpg" else ".png"

/-- The try-block body for one file (convert.py lines 141-156): decode,
sanitize, write `stem + ext`, and build the stats record; any per-file
failure (decode error or write error) produces no output and no record,
and the loop moves on (the except branch at lines 157-158 only logs). -/
def convert_one (cfg : Config) (f : InputFile) :
    Option ((String × Img) × ConversionRecord) :=
  match f.decoded with
  | none => none
  | some img =>
    if f.writeOk then
      some ((f.stem ++ output_ext cfg, sanitize_image img),
            { filename := f.name, original_size := f.origSize,
              converted_size := f.encodedSize })
    else none

/-- convert_files' loop over the batch: the written output files and the
returned stats list. -/
def convert_files (cfg : Config) (files : List InputFile) :
    List (String × Img) × List ConversionRecord :=
  let results := files.filterMap (convert_one cfg)
  (results.map Prod.fst, results.map Prod.snd)

/-! ## Reporter (print_summary, lines 108-114) -/

/-- Sort key of `sorted(stats, key=lambda x: x['converted_size'],
reverse=True)`: descending by converted_size (Python's sort is stable,
as is List.mergeSort). -/
def descBySize (a b : ConversionRecord) : Bool :=
  decide (b.converted_size ≤ a.converted_size)

/-- Top three records by converted_size descending (convert.py line 109). -/
def top3 (stats : List ConversionRecord) : List ConversionRecord :=
  (stats.mergeSort descBySize).take 3

/-- Compression ratio of one displayed record (convert.py line 112):
converted/original, or 1 when original_size is 0 (falsy), so the
division is never taken with a zero denominator.  Python computes a
float; the exact quotient is modelled in ℚ. -/
def ratioOf (s : ConversionRecord) : ℚ :=
  if s.original_size = 0 then 1
  else (s.converted_size : ℚ) / (s.original_size : ℚ)

/-- What the top-3 block of print_summary shows: each of the top three
records together with its compression ratio. -/
def top3_display (stats : List ConversionRecord) : List (ConversionRecord × ℚ) :=
  (top3 stats).map (fun s => (s, ratioOf s))

/-! ## Lemmas about the Image Normalizer -/

theorem sanitize_eq_of_RGBA (img : Img) (h : img.mode = .RGBA) :
    sanitize_image img = pasteMask (imageNewWhite img.width img.height) img := by
  simp [sanitize_image, h]

theorem sanitize_eq_of_LA (img : Img) (h : img.mode = .LA) :
    sanitize_image img = imageNewWhite img.width img.height := by
  simp [sanitize_image, h]

theorem sanitize_eq_of_P (img : Img) (h : img.mode = .P) :
    sanitize_image img = pasteMask (imageNewWhite img.width img.height) (convertPToRGBA img) := by
  simp [sanitize_image, h, convertPToRGBA]

theorem sanitize_eq_of_L (img : Img) (h : img.mode = .L) :
    sanitize_image img = convertToRGB img := by
  simp [sanitize_image, h]

theorem sanitize_eq_of_RGB (img : Img) (h : img.mode = .RGB) :
    sanitize_image img = img := by
  simp [sanitize_image, h]

theorem sanitize_mode_eq_RGB (img : Img) : (sanitize_image img).mode = .RGB := by
  cases h : img.mode
  case RGB => rw [sanitize_eq_of_RGB img h, h]
  case RGBA => rw [sanitize_eq_of_RGBA img h]; rfl
  case LA => rw [sanitize_eq_of_LA img h]; rfl
  case L => rw [sanitize_eq_of_L img h]; rfl
  case P => rw [sanitize_eq_of_P img h]; rfl

/-! ## Concrete probe images used by witnesses and counterexamples -/

def laProbe : Img :=
  { mode := .LA, width := 1, height := 1, px := [[0, 255]], palette := [] }

def rgbProbe : Img :=
  { mode := .RGB, width := 1, height := 1, px := [[5, 6, 7]], palette := [] }

def rgbaProbe : Img :=
  { mode := .RGBA, width := 2, height := 1,
    px := [[10, 20, 30, 128], [1, 2, 3, 255]], palette := [] }

/-- C1: the spec says every image carrying an alpha channel, including
grayscale-with-alpha (mode LA), is composited onto white with alpha as
the mask, alpha-255 pixels keeping their original colour.  The code does
not: for an LA image the paste at line 55 is skipped (it only runs for
RGBA), so the untouched white canvas is returned.  Here a 1x1 LA image
with a black, fully opaque pixel (luma 0, alpha 255) comes out solid
white, although the blend the claim describes would keep the black pixel
(blendChan 255 0 255 = 0). -/
theorem C1_LA_not_composited :
    sanitize_image laProbe = imageNewWhite 1 1
    ∧ (sanitize_image laProbe).px = [[255, 255, 255]]
    ∧ blendChan 255 0 255 = 0 := by
  decide

/-- C6: for every input image (in particular the supported decoded modes
RGB, RGBA, grayscale L, palette P, palette-with-alpha and LA) whose pixel
list matches its size, sanitize_image returns a plain RGB image — hence
fully opaque — with the same width, height and pixel count. -/
theorem C6_normalize_always_rgb (img : Img)
    (hlen : img.px.length = img.width * img.height) :
    (sanitize_image img).mode = .RGB
    ∧ (sanitize_image img).width = img.width
    ∧ (sanitize_image img).height = img.height
    ∧ (sanitize_image img).px.length = img.width * img.height := by
  refine ⟨sanitize_mode_eq_RGB img, ?_⟩
  cases h : img.mode
  case RGB =>
    rw [sanitize_eq_of_RGB img h]
    exact ⟨rfl, rfl, hlen⟩
  case RGBA =>
    rw [sanitize_eq_of_RGBA img h]
    simp [pasteMask, imageNewWhite, hlen]
  case LA =>
    rw [sanitize_eq_of_LA img h]
    simp [imageNewWhite]
  case L =>
    rw [sanitize_eq_of_L img h]
    simp [convertToRGB, h, hlen]
  case P =>
    rw [sanitize_eq_of_P img h]
    simp [pasteMask, imageNewWhite, convertPToRGBA, hlen]

theorem C6_normalize_always_rgb_witness :
    rgbaProbe.px.length = rgbaProbe.width * rgbaProbe.height
    ∧ ((sanitize_image rgbaProbe).mode = .RGB
       ∧ (sanitize_image rgbaProbe).width = rgbaProbe.width
       ∧ (sanitize_image rgbaProbe).height = rgbaProbe.height
       ∧ (sanitize_image rgbaProbe).px.length = rgbaProbe.width * rgbaProbe.height) :=
  ⟨by decide, C6_normalize_always_rgb rgbaProbe (by decide)⟩

/-- C7: sanitize_image is idempotent, and an image already in plain RGB
mode passes through unchanged. -/
theorem C7_normalize_idempotent (x : Img) :
    sanitize_image (sanitize_image x) = sanitize_image x
    ∧ (x.mode = .RGB → sanitize_image x = x) :=
  ⟨sanitize_eq_of_RGB _ (sanitize_mode_eq_RGB x),
   fun h => sanitize_eq_of_RGB x h⟩

theorem C7_normalize_idempotent_witness :
    sanitize_image (sanitize_image rgbProbe) = sanitize_image rgbProbe
    ∧ sanitize_image rgbProbe = rgbProbe :=
  ⟨(C7_normalize_idempotent rgbProbe).1, (C7_normalize_idempotent rgbProbe).2 rfl⟩

/-! ## Blend arithmetic lemmas -/

theorem muldiv255_right_zero (c : Nat) : muldiv255 c 0 = 0 := by
  simp [muldiv255, Nat.shiftRight_eq_div_pow]

set_option maxRecDepth 4000 in
theorem muldiv255_aux255 : ∀ i : Fin 256, muldiv255 i.val 255 = i.val := by
  decide

theorem muldiv255_right_255 (c : Nat) (h : c ≤ 255) : muldiv255 c 255 = c :=
  muldiv255_aux255 ⟨c, by omega⟩

theorem blendChan_alpha0 (c : Nat) : blendChan 255 c 0 = 255 := by
  have h1 : muldiv255 255 255 = 255 := by decide
  simp [blendChan, h1, muldiv255_right_zero]

theorem blendChan_alpha255 (c : Nat) (h : c ≤ 255) : blendChan 255 c 255 = c := by
  have h1 : muldiv255 255 0 = 0 := by decide
  simp [blendChan, h1, muldiv255_right_255 c h]

theorem blendPix_white_alpha0 (p : Pixel) (h : p.getD 3 0 = 0) :
    blendPix [255, 255, 255] p = [255, 255, 255] := by
  simp only [blendPix]
  rw [h]
  simp [blendChan_alpha0]

theorem blendPix_white_amax (r g b : Nat) (hr : r ≤ 255) (hg : g ≤ 255) (hb : b ≤ 255) :
    blendPix [255, 255, 255] [r, g, b, 255] = [r, g, b] := by
  simp [blendPix, List.getD, blendChan_alpha255 r hr, blendChan_alpha255 g hg,
        blendChan_alpha255 b hb]

theorem zipWith_replicate_eq_map {α β γ : Type} (f : α → β → γ) (c : α) :
    ∀ (l : List β) (n : Nat), l.length = n →
      List.zipWith f (List.replicate n c) l = l.map (f c)
  | [], n, h => by simp [← h]
  | b :: t, n, h => by
    cases n with
    | zero => simp at h
    | succ m =>
      simp only [List.replicate_succ, List.zipWith_cons_cons, List.map_cons]
      rw [zipWith_replicate_eq_map f c t m (by simpa using h)]

theorem map_blendWhite_alpha0 :
    ∀ (l : List Pixel), (∀ p ∈ l, p.getD 3 0 = 0) →
      l.map (blendPix [255, 255, 255]) = List.replicate l.length [255, 255, 255]
  | [], _ => rfl
  | p :: t, h => by
    have hp := h p (by simp)
    have ht := map_blendWhite_alpha0 t (fun q hq => h q (by simp [hq]))
    simp [blendPix_white_alpha0 p hp, ht, List.replicate_succ]

theorem map_blendWhite_amax :
    ∀ (l : List Pixel),
      (∀ p ∈ l, ∃ r g b, p = [r, g, b, 255] ∧ r ≤ 255 ∧ g ≤ 255 ∧ b ≤ 255) →
      l.map (blendPix [255, 255, 255]) = l.map (fun p => p.take 3)
  | [], _ => rfl
  | p :: t, h => by
    obtain ⟨r, g, b, hp, hr, hg, hb⟩ := h p (by simp)
    have ht := map_blendWhite_amax t (fun q hq => h q (by simp [hq]))
    subst hp
    simp [blendPix_white_amax r g b hr hg hb, ht]

/-- C5: for an RGBA image whose alpha channel is 0 everywhere,
sanitize_image returns the solid white canvas of the same size; for an
RGBA image whose alpha channel is 255 everywhere (with in-range colour
channels), the result's pixels are exactly the original RGB channels. -/
theorem C5_alpha_extremes (img : Img) (hm : img.mode = .RGBA)
    (hlen : img.px.length = img.width * img.height) :
    ((∀ p ∈ img.px, p.getD 3 0 = 0) →
        sanitize_image img = imageNewWhite img.width img.height)
    ∧ ((∀ p ∈ img.px, ∃ r g b, p = [r, g, b, 255] ∧ r ≤ 255 ∧ g ≤ 255 ∧ b ≤ 255) →
        (sanitize_image img).px = img.px.map (fun p => p.take 3)) := by
  constructor
  · intro ha
    rw [sanitize_eq_of_RGBA img hm]
    simp only [pasteMask, imageNewWhite]
    rw [zipWith_replicate_eq_map blendPix [255, 255, 255] img.px _ hlen,
        map_blendWhite_alpha0 img.px ha, hlen]
  · intro ha
    rw [sanitize_eq_of_RGBA img hm]
    simp only [pasteMask, imageNewWhite]
    rw [zipWith_replicate_eq_map blendPix [255, 255, 255] img.px _ hlen,
        map_blendWhite_amax img.px ha]

def rgbaAlpha0 : Img :=
  { mode := .RGBA, width := 2, height := 1,
    px := [[10, 20, 30, 0], [1, 2, 3, 0]], palette := [] }

def rgbaFullAlpha : Img :=
  { mode := .RGBA, width := 2, height := 1,
    px := [[10, 20, 30, 255], [1, 2, 3, 255]], palette := [] }

theorem C5_alpha_extremes_witness :
    sanitize_image rgbaAlpha0 = imageNewWhite 2 1
    ∧ (sanitize_image rgbaFullAlpha).px = rgbaFullAlpha.px.map (fun p => p.take 3) :=
  ⟨(C5_alpha_extremes rgbaAlpha0 rfl (by decide)).1 (by decide),
   (C5_alpha_extremes rgbaFullAlpha rfl (by decide)).2 (by
     intro p hp
     simp only [rgbaFullAlpha, List.mem_cons, List.not_mem_nil, or_false] at hp
     rcases hp with h | h <;> subst h
     · exact ⟨10, 20, 30, rfl, by omega, by omega, by omega⟩
     · exact ⟨1, 2, 3, rfl, by omega, by omega, by omega⟩)⟩

/-! ## Config Store claims -/

/-- Predicate on the parse outcome of config.json: the stored
jpeg_quality value, when present, lies in [1,100]. -/
def stored_quality_ok : FileState → Bool
  | .parsed _ (some v) => decide (1 ≤ v ∧ v ≤ 100)
  | _ => true

/-- C2 counterexample: load_config does NOT clamp.  A config file that
parses to jpeg_quality 101 is loaded as 101, outside [1,100]. -/
theorem C2_load_does_not_clamp :
    (load_config (.parsed none (some 101))).jpeg_quality = 101
    ∧ ¬ ((load_config (.parsed none (some 101))).jpeg_quality ≤ 100) := by
  decide

/-- C2 (amended): load_config applies defaults on a missing or corrupt
file and for missing keys, but passes a stored jpeg_quality through
unclamped; the loaded quality lies in [1,100] exactly when the stored
value is absent or already in range. -/
theorem C2_load_quality_in_range (fs : FileState)
    (h : stored_quality_ok fs = true) :
    1 ≤ (load_config fs).jpeg_quality ∧ (load_config fs).jpeg_quality ≤ 100 := by
  cases fs with
  | absent => decide
  | corrupt => decide
  | parsed f q =>
    cases q with
    | none => simp [load_config]
    | some v =>
      simp only [stored_quality_ok, decide_eq_true_eq] at h
      simpa [load_config] using h

theorem C2_load_quality_in_range_witness :
    stored_quality_ok (.parsed (some "jpeg") (some 50)) = true
    ∧ (1 ≤ (load_config (.parsed (some "jpeg") (some 50))).jpeg_quality
       ∧ (load_config (.parsed (some "jpeg") (some 50))).jpeg_quality ≤ 100) :=
  ⟨by decide, C2_load_quality_in_range (.parsed (some "jpeg") (some 50)) (by decide)⟩

/-- C8: for every valid configuration (format png or jpeg, quality in
[1,100]), saving and reloading yields the same configuration, on the
successful-write path. -/
theorem C8_config_roundtrip (cfg : Config)
    (hf : cfg.output_fmt = "png" ∨ cfg.output_fmt = "jpeg")
    (hq : 1 ≤ cfg.jpeg_quality ∧ cfg.jpeg_quality ≤ 100) :
    load_config (save_config cfg) = cfg := by
  cases cfg
  simp [load_config, save_config]

theorem C8_config_roundtrip_witness :
    (({ output_fmt := "jpeg", jpeg_quality := 80 } : Config).output_fmt = "png"
      ∨ ({ output_fmt := "jpeg", jpeg_quality := 80 } : Config).output_fmt = "jpeg")
    ∧ (1 ≤ ({ output_fmt := "jpeg", jpeg_quality := 80 } : Config).jpeg_quality
       ∧ ({ output_fmt := "jpeg", jpeg_quality := 80 } : Config).jpeg_quality ≤ 100)
    ∧ load_config (save_config { output_fmt := "jpeg", jpeg_quality := 80 })
        = { output_fmt := "jpeg", jpeg_quality := 80 } :=
  ⟨by decide, by decide,
   C8_config_roundtrip { output_fmt := "jpeg", jpeg_quality := 80 } (by decide) (by decide)⟩

/-! ## Quality prompt claim -/

/-- C3: with a current-configuration default in [1,100], each of the
prompt inputs "0", "101", "-5", "abc", "" resolves into [1,100]:
out-of-range numbers are clamped (0 to 1, 101 to 100, -5 to 1) and
non-numeric or empty input falls back to the default. -/
theorem C3_quality_prompt_inputs (d : Int) (h1 : 1 ≤ d) (h2 : d ≤ 100) :
    resolve_quality "0" d = 1
    ∧ resolve_quality "101" d = 100
    ∧ resolve_quality "-5" d = 1
    ∧ resolve_quality "abc" d = d
    ∧ resolve_quality "" d = d
    ∧ (∀ s ∈ (["0", "101", "-5", "abc", ""] : List String),
        1 ≤ resolve_quality s d ∧ resolve_quality s d ≤ 100) := by
  have p0 : parsePyInt "0" = some 0 := by decide
  have p101 : parsePyInt "101" = some 101 := by decide
  have pm5 : parsePyInt "-5" = some (-5) := by decide
  have pabc : parsePyInt "abc" = none := by decide
  have e0 : resolve_quality "0" d = 1 := by simp [resolve_quality, p0]
  have e101 : resolve_quality "101" d = 100 := by simp [resolve_quality, p101]
  have em5 : resolve_quality "-5" d = 1 := by
    simp [resolve_quality, pm5]
  have eabc : resolve_quality "abc" d = d := by simp [resolve_quality, pabc]
  have eemp : resolve_quality "" d = d := by
    unfold resolve_quality
    rw [if_pos rfl]
    omega
  refine ⟨e0, e101, em5, eabc, eemp, ?_⟩
  intro s hs
  fin_cases hs
  · rw [e0]; omega
  · rw [e101]; omega
  · rw [em5]; omega
  · rw [eabc]; omega
  · rw [eemp]; omega

theorem C3_quality_prompt_inputs_witness :
    (1 ≤ (95 : Int) ∧ (95 : Int) ≤ 100)
    ∧ (resolve_quality "0" 95 = 1
       ∧ resolve_quality "101" 95 = 100
       ∧ resolve_quality "-5" 95 = 1
       ∧ resolve_quality "abc" 95 = 95
       ∧ resolve_quality "" 95 = 95
       ∧ (∀ s ∈ (["0", "101", "-5", "abc", ""] : List String),
           1 ≤ resolve_quality s 95 ∧ resolve_quality s 95 ≤ 100)) :=
  ⟨by decide, C3_quality_prompt_inputs 95 (by decide) (by decide)⟩

/-! ## Interactive shell claim: PNG selection -/

/-- C10: when the user's first accepted menu entry is "2" (PNG), after
any number of invalid entries, the configuration chosen (the one
choose_format then saves and returns) is the loaded configuration with
only output_fmt changed to "png": jpeg_quality is untouched, and it
survives the save/load round trip. -/
theorem C10_png_preserves_quality (cfg : Config) (qs : String)
    (rest : List (String × String)) :
    ∀ (pre : List (String × String)),
      (∀ p ∈ pre, pyStripLower p.1 ≠ "q" ∧ pyStripLower p.1 ≠ "1" ∧ pyStripLower p.1 ≠ "2") →
      choose_format_loop cfg (pre ++ ("2", qs) :: rest)
          = some (some { cfg with output_fmt := "png" })
      ∧ ({ cfg with output_fmt := "png" } : Config).jpeg_quality = cfg.jpeg_quality
      ∧ (load_config (save_config { cfg with output_fmt := "png" })).jpeg_quality
          = cfg.jpeg_quality
  | [], _ => by
    have h2 : pyStripLower "2" = "2" := by decide
    refine ⟨?_, rfl, rfl⟩
    simp [choose_format_loop, h2]
  | p :: t, hpre => by
    obtain ⟨hq, h1, h2⟩ := hpre p (by simp)
    have ih := C10_png_preserves_quality cfg qs rest t (fun r hr => hpre r (by simp [hr]))
    simpa [choose_format_loop, hq, h1, h2] using ih

theorem C10_png_preserves_quality_witness :
    (∀ p ∈ ([("x", "")] : List (String × String)),
      pyStripLower p.1 ≠ "q" ∧ pyStripLower p.1 ≠ "1" ∧ pyStripLower p.1 ≠ "2")
    ∧ (choose_format_loop { output_fmt := "jpeg", jpeg_quality := 42 }
          ([("x", "")] ++ ("2", "77") :: [])
        = some (some { output_fmt := "png", jpeg_quality := 42 })
      ∧ ({ output_fmt := "png", jpeg_quality := 42 } : Config).jpeg_quality = 42
      ∧ (load_config (save_config { output_fmt := "png", jpeg_quality := 42 })).jpeg_quality = 42) :=
  ⟨by decide,
   C10_png_preserves_quality { output_fmt := "jpeg", jpeg_quality := 42 } "77" []
     [("x", "")] (by decide)⟩

/-! ## Converter Loop claim -/

theorem convert_one_none_of_corrupt (cfg : Config) (f : InputFile)
    (h : f.decoded = none) : convert_one cfg f = none := by
  simp [convert_one, h]

theorem filterMap_convert_one_good (cfg : Config) :
    ∀ (l : List InputFile),
      (∀ f ∈ l, (f.decoded).isSome ∧ f.writeOk = true) →
      (l.filterMap (convert_one cfg)).map Prod.snd
        = l.map (fun f => { filename := f.name, original_size := f.origSize,
                            converted_size := f.encodedSize })
  | [], _ => rfl
  | f :: t, h => by
    obtain ⟨hs, hw⟩ := h f (by simp)
    have ht := filterMap_convert_one_good cfg t (fun g hg => h g (by simp [hg]))
    obtain ⟨img, hi⟩ := Option.isSome_iff_exists.mp hs
    simp [List.filterMap_cons, convert_one, hi, hw, ht]

/-- C4: a batch holding one corrupt file (decode fails) among
otherwise-valid files produces exactly the valid files' records in
order, every valid file also yields a written output file, and the
corrupt file's name is absent from the records. -/
theorem C4_batch_partial_failure (cfg : Config) (g1 g2 : List InputFile)
    (bad : InputFile)
    (hbad : bad.decoded = none)
    (hgood : ∀ f ∈ g1 ++ g2, (f.decoded).isSome ∧ f.writeOk = true)
    (hname : bad.name ∉ (g1 ++ g2).map InputFile.name) :
    (convert_files cfg (g1 ++ bad :: g2)).2
        = (g1 ++ g2).map (fun f => { filename := f.name, original_size := f.origSize,
                                     converted_size := f.encodedSize })
    ∧ (∀ f ∈ g1 ++ g2, ∃ i, f.decoded = some i
         ∧ (f.stem ++ output_ext cfg, sanitize_image i) ∈ (convert_files cfg (g1 ++ bad :: g2)).1)
    ∧ bad.name ∉ ((convert_files cfg (g1 ++ bad :: g2)).2).map ConversionRecord.filename := by
  have hg1 : ∀ f ∈ g1, (f.decoded).isSome ∧ f.writeOk = true :=
    fun f hf => hgood f (by simp [hf])
  have hg2 : ∀ f ∈ g2, (f.decoded).isSome ∧ f.writeOk = true :=
    fun f hf => hgood f (by simp [hf])
  have hrecords : (convert_files cfg (g1 ++ bad :: g2)).2
      = (g1 ++ g2).map (fun f => ({ filename := f.name, original_size := f.origSize,
                                    converted_size := f.encodedSize } : ConversionRecord)) := by
    simp only [convert_files, List.filterMap_append, List.filterMap_cons,
      convert_one_none_of_corrupt cfg bad hbad, List.map_append]
    rw [filterMap_convert_one_good cfg g1 hg1, filterMap_convert_one_good cfg g2 hg2]
  refine ⟨hrecords, ?_, ?_⟩
  · intro f hf
    obtain ⟨hs, hw⟩ := hgood f hf
    obtain ⟨img, hi⟩ := Option.isSome_iff_exists.mp hs
    refine ⟨img, hi, ?_⟩
    have hmem : f ∈ g1 ++ bad :: g2 := by
      rcases List.mem_append.mp hf with h | h
      · exact List.mem_append.mpr (Or.inl h)
      · exact List.mem_append.mpr (Or.inr (List.mem_cons_of_mem bad h))
    have hone : convert_one cfg f
        = some ((f.stem ++ output_ext cfg, sanitize_image img),
                { filename := f.name, original_size := f.origSize,
                  converted_size := f.encodedSize }) := by
      simp [convert_one, hi, hw]
    simp only [convert_files]
    exact List.mem_map.mpr ⟨_, List.mem_filterMap.mpr ⟨f, hmem, hone⟩, rfl⟩
  · rw [hrecords]
    intro hmem
    apply hname
    obtain ⟨r, hr, hrn⟩ := List.mem_map.mp hmem
    obtain ⟨f, hf, hfr⟩ := List.mem_map.mp hr
    exact List.mem_map.mpr ⟨f, hf, by rw [← hfr] at hrn; exact hrn⟩

def fileA : InputFile :=
  { name := "a.heic", stem := "a", origSize := 500000,
    decoded := some rgbProbe, writeOk := true, encodedSize := 1234 }

def fileBad : InputFile :=
  { name := "bad.heic", stem := "bad", origSize := 77,
    decoded := none, writeOk := true, encodedSize := 0 }

def fileC : InputFile :=
  { name := "c.heif", stem := "c", origSize := 300000,
    decoded := some rgbaProbe, writeOk := true, encodedSize := 999 }

theorem C4_batch_partial_failure_witness :
    fileBad.decoded = none
    ∧ (∀ f ∈ [fileA] ++ [fileC], (f.decoded).isSome ∧ f.writeOk = true)
    ∧ fileBad.name ∉ ([fileA] ++ [fileC]).map InputFile.name
    ∧ ((convert_files default_config ([fileA] ++ fileBad :: [fileC])).2
        = ([fileA] ++ [fileC]).map (fun f => { filename := f.name, original_size := f.origSize,
                                               converted_size := f.encodedSize })
      ∧ (∀ f ∈ [fileA] ++ [fileC], ∃ i, f.decoded = some i
           ∧ (f.stem ++ output_ext default_config, sanitize_image i)
               ∈ (convert_files default_config ([fileA] ++ fileBad :: [fileC])).1)
      ∧ fileBad.name ∉ ((convert_files default_config ([fileA] ++ fileBad :: [fileC])).2).map
          ConversionRecord.filename) :=
  ⟨rfl, by decide, by decide,
   C4_batch_partial_failure default_config [fileA] [fileC] fileBad rfl (by decide) (by decide)⟩

/-! ## Reporter claim -/

theorem descBySize_trans : ∀ (a b c : ConversionRecord),
    descBySize a b → descBySize b c → descBySize a c := by
  intro a b c
  simp only [descBySize, decide_eq_true_eq]
  omega

theorem descBySize_total : ∀ (a b : ConversionRecord),
    descBySize a b || descBySize b a := by
  intro a b
  simp only [descBySize, Bool.or_eq_true, decide_eq_true_eq]
  omega

/-- C9: for every non-empty record list, the top-3 block shows
min 3 n entries, ordered by converted_size descending, each drawn from
the records with ratio converted/original (1 when original_size is 0,
so the division is guarded), and every record not shown is no larger
than any shown one. -/
theorem C9_reporter_top3 (stats : List ConversionRecord) (_hne : stats ≠ []) :
    (top3_display stats).length = min 3 stats.length
    ∧ List.Pairwise (fun p q => q.1.converted_size ≤ p.1.converted_size) (top3_display stats)
    ∧ (∀ p ∈ top3_display stats, p.1 ∈ stats
        ∧ p.2 = (if p.1.original_size = 0 then (1 : ℚ)
                 else (p.1.converted_size : ℚ) / (p.1.original_size : ℚ)))
    ∧ (∀ s ∈ stats, s ∈ top3 stats
        ∨ ∀ p ∈ top3 stats, s.converted_size ≤ p.converted_size) := by
  have hsorted : (stats.mergeSort descBySize).Pairwise (fun a b => descBySize a b) :=
    List.sorted_mergeSort descBySize_trans descBySize_total stats
  have htake : (top3 stats).Pairwise (fun a b => descBySize a b) :=
    hsorted.sublist (List.take_sublist 3 _)
  refine ⟨?_, ?_, ?_, ?_⟩
  · simp [top3_display, top3]
  · rw [top3_display, List.pairwise_map]
    exact htake.imp (fun h => by simpa [descBySize] using h)
  · intro p hp
    obtain ⟨s, hs, rfl⟩ := List.mem_map.mp hp
    refine ⟨List.mem_mergeSort.mp (List.mem_of_mem_take hs), ?_⟩
    simp [ratioOf]
  · intro s hs
    have hsm : s ∈ stats.mergeSort descBySize := List.mem_mergeSort.mpr hs
    rw [← List.take_append_drop 3 (stats.mergeSort descBySize)] at hsm hsorted
    rcases List.mem_append.mp hsm with h | h
    · left
      simpa [top3] using h
    · right
      intro p hp
      have hcross := (List.pairwise_append.mp hsorted).2.2
      have hps : descBySize p s := by
        apply hcross p _ s h
        simpa [top3] using hp
      simpa [descBySize] using hps

def statsProbe : List ConversionRecord :=
  [{ filename := "a", original_size := 0, converted_size := 5 },
   { filename := "b", original_size := 10, converted_size := 50 },
   { filename := "c", original_size := 2, converted_size := 50 },
   { filename := "d", original_size := 100, converted_size := 7 }]

theorem C9_reporter_top3_witness :
    statsProbe ≠ []
    ∧ ((top3_display statsProbe).length = min 3 statsProbe.length
      ∧ List.Pairwise (fun p q => q.1.converted_size ≤ p.1.converted_size) (top3_display statsProbe)
      ∧ (∀ p ∈ top3_display statsProbe, p.1 ∈ statsProbe
          ∧ p.2 = (if p.1.original_size = 0 then (1 : ℚ)
                   else (p.1.converted_size : ℚ) / (p.1.original_size : ℚ)))
      ∧ (∀ s ∈ statsProbe, s ∈ top3 statsProbe
          ∨ ∀ p ∈ top3 statsProbe, s.converted_size ≤ p.converted_size)) :=
  ⟨by decide, C9_reporter_top3 statsProbe (by decide)⟩
